import Mathlib

/-!
Verification development for the crabshell hardening pipeline.

The definitions below are a shallow embedding of the Rust sources:

* `src/packer/src/main.rs` — entry selection, keep policy, payload blob
  construction, dex renumbering;
* `src/loader/app/src/main/rust/src/lib.rs` — payload blob parsing and
  decryption, payload digest policy, and the process-wide dex-load marker.

Byte strings are modelled as `List Nat` (a `u8` is a `Nat` below 256; the
wire codec never needs the bound, so the theorems quantify over all `Nat`
lists).  Archive entry names handled as Rust `String`/`str` are modelled as
`List Char`; names travelling through the binary payload format are modelled
as their UTF-8 byte lists.  The AES-256-GCM primitive and SHA-256 live in
external crates, so they enter as function parameters: decryption is an
abstract `List Nat → List Nat → Option (List Nat)` (nonce, ciphertext ↦
plaintext) and hashing an abstract `List Nat → List Nat`.
-/

deriving instance DecidableEq for Except

/-! ## Shared binary codec (packer side: `build_payload_blob`) -/

/-- Little-endian bytes of `n as u16` (`(x as u16).to_le_bytes()` in
`build_payload_blob`, src/packer/src/main.rs:226).  The mod-256 digits agree
with casting to `u16` first and then serialising. -/
def u16le (n : Nat) : List Nat := [n % 256, n / 256 % 256]

/-- Little-endian bytes of `n as u32` (`(x as u32).to_le_bytes()`,
src/packer/src/main.rs:222,228,233). -/
def u32le (n : Nat) : List Nat :=
  [n % 256, n / 256 % 256, n / 65536 % 256, n / 16777216 % 256]

/-- The five ASCII bytes of the magic string `SHELL`
(src/packer/src/main.rs:234, src/loader lib.rs:503). -/
def shellMagic : List Nat := [83, 72, 69, 76, 76]

/-- One payload entry as produced by `collect_and_encrypt_payload_entries`:
UTF-8 bytes of the archive-relative name, the ciphertext, and the 12-byte
nonce (the Rust type is `(String, Vec<u8>, [u8; 12])`). -/
structure PackEntry where
  name : List Nat
  encData : List Nat
  nonce : List Nat
deriving DecidableEq, Repr

/-- The metadata record written for one entry by the loop at
src/packer/src/main.rs:224-230:
`[name_len: u16 LE][name][cipher_len: u32 LE][nonce]`. -/
def metadataRecord (e : PackEntry) : List Nat :=
  u16le e.name.length ++ e.name ++ u32le e.encData.length ++ e.nonce

/-- `build_payload_blob` (src/packer/src/main.rs:214-237).  The two `for`
loops extending `payload_blob` and `metadata` are translated as left folds;
then the metadata, its length as `u32` LE, and the magic are appended. -/
def build_payload_blob (entries : List PackEntry) : List Nat :=
  let payload := entries.foldl (fun acc e => acc ++ e.encData) []
  let metadata := entries.foldl (fun acc e => acc ++ metadataRecord e) (u32le entries.length)
  payload ++ metadata ++ u32le metadata.length ++ shellMagic

/-! ## Shared binary codec (loader side: `decrypt_payload`) -/

/-- Reading exactly `n` bytes from the front of a buffer:
`std::io::Read::read_exact` on a cursor either yields the bytes and advances,
or fails with the io error `failed to fill whole buffer`. -/
def readExactN (buf : List Nat) (n : Nat) : Except String (List Nat × List Nat) :=
  if n ≤ buf.length then Except.ok (buf.take n, buf.drop n)
  else Except.error "failed to fill whole buffer"

/-- Value of a little-endian byte list (`u16::from_le_bytes`,
`u32::from_le_bytes` in `decrypt_payload`). -/
def fromLeBytes (l : List Nat) : Nat := l.foldr (fun b acc => b + 256 * acc) 0

/-- A UTF-8 continuation byte (`10xxxxxx`). -/
def utf8Cont (b : Nat) : Bool := 128 ≤ b && b ≤ 191

/-- One step of the standard UTF-8 acceptance automaton.  State 0 expects a
new code point; states 1-3 expect that many unconstrained continuation
bytes; states 4-7 expect the range-restricted second byte after `E0`, `ED`,
`F0`, `F4` respectively (rejecting overlong forms, surrogates, and code
points above `U+10FFFF`); state 8 is the sink for rejected input. -/
def utf8Next (st b : Nat) : Nat :=
  match st with
  | 0 =>
    if b ≤ 127 then 0
    else if 194 ≤ b && b ≤ 223 then 1
    else if b == 224 then 4
    else if (225 ≤ b && b ≤ 236) || b == 238 || b == 239 then 2
    else if b == 237 then 5
    else if b == 240 then 6
    else if 241 ≤ b && b ≤ 243 then 3
    else if b == 244 then 7
    else 8
  | 1 => if utf8Cont b then 0 else 8
  | 2 => if utf8Cont b then 1 else 8
  | 3 => if utf8Cont b then 2 else 8
  | 4 => if 160 ≤ b && b ≤ 191 then 1 else 8
  | 5 => if 128 ≤ b && b ≤ 159 then 1 else 8
  | 6 => if 144 ≤ b && b ≤ 191 then 2 else 8
  | 7 => if 128 ≤ b && b ≤ 143 then 2 else 8
  | _ => 8

/-- Validity of a byte list as UTF-8, exactly the acceptance condition of
`String::from_utf8` in the name read at src/loader lib.rs:534 (shortest-form
encodings only, surrogates and values above `U+10FFFF` rejected), expressed
by running the acceptance automaton. -/
def validUtf8 (l : List Nat) : Bool := l.foldl utf8Next 0 == 0

/-- The metadata-record loop of `decrypt_payload`
(src/loader lib.rs:527-545): `num_files` iterations, each reading
`[name_len: u16][name][size: u32][iv: 12]` from the metadata cursor.  The
name must decode as UTF-8 (`String::from_utf8`, modelled by `validUtf8`; the
io error text is abbreviated to its fixed head `invalid utf-8 sequence`).
Rust's `?` operator is `Except.bind`.  Returns the `(name, size, iv)`
triples in order. -/
def parseEntries : Nat → List Nat → Except String (List (List Nat × Nat × List Nat))
  | 0, _ => Except.ok []
  | n + 1, buf =>
    (readExactN buf 2).bind (fun p1 =>
      (readExactN p1.2 (fromLeBytes p1.1)).bind (fun p2 =>
        if validUtf8 p2.1 then
          (readExactN p2.2 4).bind (fun p3 =>
            (readExactN p3.2 12).bind (fun p4 =>
              (parseEntries n p4.2).bind (fun rest =>
                Except.ok ((p2.1, fromLeBytes p3.1, p4.1) :: rest))))
        else Except.error "invalid utf-8 sequence"))

/-- The decryption loop of `decrypt_payload` (src/loader lib.rs:557-566):
read `size` ciphertext bytes per entry and decrypt with the recorded nonce;
a decryption failure aborts with an error (the Rust message interpolates the
entry name; the model keeps the fixed head `Decryption failed`). -/
def decryptEntries (decOne : List Nat → List Nat → Option (List Nat)) :
    List (List Nat × Nat × List Nat) → List Nat → Except String (List (List Nat × List Nat))
  | [], _ => Except.ok []
  | (name, size, iv) :: rest, buf =>
    (readExactN buf size).bind (fun p =>
      match decOne iv p.1 with
      | none => Except.error "Decryption failed"
      | some plain =>
        (decryptEntries decOne rest p.2).bind (fun tail =>
          Except.ok ((name, plain) :: tail)))

/-- Metadata phase of `decrypt_payload` (src/loader lib.rs:515-545): seek to
`metadata_start`, read the `metadata_size`-byte metadata block, read the
4-byte entry count, and run the record loop. -/
def parseBlobMetadata (data : List Nat) (metadataStart metadataSize : Nat) :
    Except String (List (List Nat × Nat × List Nat)) :=
  (readExactN (data.drop metadataStart) metadataSize).bind (fun m =>
    (readExactN m.1 4).bind (fun p => parseEntries (fromLeBytes p.1) p.2))

/-- Tail of `decrypt_payload` after the footer has been validated
(src/loader lib.rs:515-568): parse the metadata, compute
`payload_start = metadata_start - total_encrypted_size` with `checked_sub`
(`Invalid payload offset` on underflow), then decrypt the ciphertexts in
order starting at `payload_start`. -/
def decodeEntriesAndDecrypt (decOne : List Nat → List Nat → Option (List Nat))
    (data : List Nat) (metadataStart metadataSize : Nat) :
    Except String (List (List Nat × List Nat)) :=
  (parseBlobMetadata data metadataStart metadataSize).bind (fun entries =>
    let totalEncryptedSize := (entries.map (fun t => t.2.1)).sum
    if totalEncryptedSize ≤ metadataStart then
      decryptEntries decOne entries (data.drop (metadataStart - totalEncryptedSize))
    else Except.error "Invalid payload offset")

/-- `decrypt_payload` (src/loader lib.rs:485-568).  The fixed AES-256-GCM
cipher built from the 32-byte key is abstracted as `decOne`.  Checks in
source order: the 9-byte footer exists (`Payload too small`), the last five
bytes are the magic (`ERR_NO_PAYLOAD`, i.e. `No shell payload found`), and
`metadata_start = file_len - 9 - metadata_size` does not underflow
(`Invalid metadata size`). -/
def decrypt_payload (decOne : List Nat → List Nat → Option (List Nat))
    (data : List Nat) : Except String (List (List Nat × List Nat)) :=
  let fileLen := data.length
  if fileLen < 9 then Except.error "Payload too small"
  else
    let footer := (data.drop (fileLen - 9)).take 9
    if footer.drop 4 ≠ shellMagic then Except.error "No shell payload found"
    else
      let metadataSize := fromLeBytes (footer.take 4)
      if fileLen - 9 < metadataSize then Except.error "Invalid metadata size"
      else decodeEntriesAndDecrypt decOne data (fileLen - 9 - metadataSize) metadataSize

/-- Digest-check phase of `extract_payload` (src/loader lib.rs:465-482),
starting from the payload bytes already read out of the archive.  SHA-256 is
abstracted as `sha`; `PAYLOAD_HASH` is the build-time constant
`payloadHash`.  On digest mismatch the function is fatal unless the embedded
digest is all-zero, in which case the check is skipped with a warning and
decryption proceeds. -/
def extract_payload_check (sha : List Nat → List Nat) (payloadHash : List Nat)
    (decOne : List Nat → List Nat → Option (List Nat))
    (encryptedData : List Nat) (verify : Bool) :
    Except String (List (List Nat × List Nat)) :=
  if verify then
    if sha encryptedData ≠ payloadHash then
      if payloadHash ≠ List.replicate 32 0 then
        Except.error "Payload integrity check failed"
      else decrypt_payload decOne encryptedData
    else decrypt_payload decOne encryptedData
  else decrypt_payload decOne encryptedData

/-! ## Packer: entry selection -/

/-- `is_payload_entry` (src/packer/src/main.rs:102-106): a name is a payload
candidate when it starts with `classes` and ends with `.dex`, or starts with
`lib/` and ends with `.so`. -/
def is_payload_entry (name : List Char) : Bool :=
  ("classes".toList.isPrefixOf name && ".dex".toList.isSuffixOf name) ||
    ("lib/".toList.isPrefixOf name && ".so".toList.isSuffixOf name)

/-- Substring search mirroring
`bytes.windows(pat.len()).any(|w| w == pat)` for a non-empty pattern
(src/packer/src/main.rs:140,149).  `windows(0)` panics in Rust; the
descriptors and prefixes built by `main` are never empty. -/
def windowMatch (pat : List Nat) : List Nat → Bool
  | [] => pat == []
  | a :: t => (pat.length ≤ (a :: t).length && (a :: t).take pat.length == pat) || windowMatch pat t

/-- `should_keep_dex` (src/packer/src/main.rs:138-145): keep when any keep
descriptor occurs as a raw byte window of the dex bytes. -/
def should_keep_dex (dexBytes : List Nat) (keepDescriptors : List (List Nat)) : Bool :=
  keepDescriptors.any (fun d => windowMatch d dexBytes)

/-- `matches_keep_prefix` (src/packer/src/main.rs:147-155), identical window
search over the keep-prefix strings. -/
def matchesKeepPrefixes (dexBytes : List Nat) (keepPrefixes : List (List Nat)) : Bool :=
  keepPrefixes.any (fun p => windowMatch p dexBytes)

/-- `Path::new(name).file_name()` followed by `unwrap_or("")`
(src/packer/src/main.rs:158-160): the component after the last `/`.  This
agrees with Rust for every name whose final component is non-empty and not a
dot component — in particular for every name ending in `.so`. -/
def rustFileName (name : List Char) : List Char :=
  ((name.splitOn '/').getLast?).getD []

/-- `should_keep_lib` (src/packer/src/main.rs:157-168): the basename must
equal a keep-libs element `X`, or `libX.so`, or `X.so`. -/
def should_keep_lib (name : List Char) (keepLibs : List (List Char)) : Bool :=
  let filename := rustFileName name
  keepLibs.any (fun kept =>
    filename == kept ||
      filename == ("lib".toList ++ kept ++ ".so".toList) ||
      filename == (kept ++ ".so".toList))

/-- Fate of one archive entry in the collection loop of
`collect_and_encrypt_payload_entries` (src/packer/src/main.rs:181-208). -/
inductive Disposition
  | skipped
  | keepPlain
  | encrypted
deriving DecidableEq, Repr

/-- The per-entry decision of the loop body at
src/packer/src/main.rs:185-207: non-candidates are ignored; a `.dex`
candidate matching a keep descriptor or keep-prefix is kept in plaintext; a
`.so` candidate matching the keep-libs policy is kept in plaintext; all
other candidates are encrypted into the payload. -/
def classifyEntry (name : List Char) (buffer : List Nat)
    (keepDescriptors keepPrefixes : List (List Nat)) (keepLibs : List (List Char)) :
    Disposition :=
  if is_payload_entry name = false then Disposition.skipped
  else if ".dex".toList.isSuffixOf name &&
      (should_keep_dex buffer keepDescriptors || matchesKeepPrefixes buffer keepPrefixes) then
    Disposition.keepPlain
  else if ".so".toList.isSuffixOf name && should_keep_lib name keepLibs then
    Disposition.keepPlain
  else Disposition.encrypted

/-- The names-and-bytes of the entries that
`collect_and_encrypt_payload_entries` pushes onto `entries` (the subsequent
encryption replaces the bytes but keeps the entry set and order). -/
def collectSelected (files : List (List Char × List Nat))
    (keepDescriptors keepPrefixes : List (List Nat)) (keepLibs : List (List Char)) :
    List (List Char × List Nat) :=
  files.filter (fun f => classifyEntry f.1 f.2 keepDescriptors keepPrefixes keepLibs ==
    Disposition.encrypted)

/-- The fatal empty-selection condition of `main`
(src/packer/src/main.rs:82-84): `payload_entries.is_empty()` triggers
`No classes*.dex or lib/**/*.so found in target APK`. -/
def noPayloadEntriesError (files : List (List Char × List Nat))
    (keepDescriptors keepPrefixes : List (List Nat)) (keepLibs : List (List Char)) : Bool :=
  (collectSelected files keepDescriptors keepPrefixes keepLibs).isEmpty

/-! ## Packer: dex renumbering -/

/-- Digit-string value for `str::parse::<usize>` (no sign handling beyond an
optional leading `+`; empty or non-digit input is an error).  Overflow of
`usize` is not modelled: the claims never exercise numerals near `2^64`. -/
def digitsVal (s : List Char) : Option Nat :=
  if s.isEmpty = false && s.all (fun c => decide ('0' ≤ c) && decide (c ≤ '9')) then
    some (s.foldl (fun a c => 10 * a + (c.toNat - 48)) 0)
  else none

/-- `middle.parse::<usize>().ok()` from `class_index`. -/
def parseUsize (s : List Char) : Option Nat :=
  match s with
  | '+' :: rest => digitsVal rest
  | _ => digitsVal s

/-- `class_index` (src/packer/src/main.rs:116-128): `classes.dex` and
`classes<empty>.dex` map to 1, `classes<middle>.dex` to the parsed middle,
anything else to `None`. -/
def class_index (name : List Char) : Option Nat :=
  if name = "classes.dex".toList then some 1
  else if "classes".toList.isPrefixOf name && ".dex".toList.isSuffixOf name then
    let middle := (name.drop 7).take (name.length - 11)
    if middle.isEmpty then some 1 else parseUsize middle
  else none

/-- `dex_name_for_index` (src/packer/src/main.rs:130-136). -/
def dex_name_for_index (index : Nat) : List Char :=
  if index = 1 then "classes.dex".toList
  else "classes".toList ++ (Nat.repr index).toList ++ ".dex".toList

/-- Ordered insertion placing the new pair after existing pairs of equal or
smaller key; folding it over a list yields a stable sort, matching the
guarantee of Rust `slice::sort_by_key` used at src/packer/src/main.rs:314
and 363. -/
def insertByKey (p : Nat × List Nat) : List (Nat × List Nat) → List (Nat × List Nat)
  | [] => [p]
  | q :: rest => if q.1 ≤ p.1 then q :: insertByKey p rest else p :: q :: rest

/-- Stable sort by key, the model of `sort_by_key(|(index, _)| *index)`. -/
def sortByKeyStable (l : List (Nat × List Nat)) : List (Nat × List Nat) :=
  l.foldl (fun acc p => insertByKey p acc) []

/-- The writing loops at src/packer/src/main.rs:321-332: entries are emitted
in order under names `dex_name_for_index k`, `k` counting up from the given
start. -/
def numberDexFrom (k : Nat) : List (Nat × List Nat) → List (List Char × List Nat)
  | [] => []
  | e :: rest => (dex_name_for_index k, e.2) :: numberDexFrom (k + 1) rest

/-- The executable-section output of `repack_target_with_bootstrap`
(src/packer/src/main.rs:314-332 with `get_bootstrap_dex_entries`,
lines 346-370): bootstrap dexes sorted by class index and numbered from 1,
then the retained originals sorted by class index and numbered from
`num_bootstrap_dexes + 1`. -/
def repack_dex_sections (bootstrap retained : List (Nat × List Nat)) :
    List (List Char × List Nat) :=
  let r := sortByKeyStable retained
  let b := sortByKeyStable bootstrap
  numberDexFrom 1 b ++ numberDexFrom (b.length + 1) r

/-! ## Loader: process-wide idempotence flag -/

/-- `try_mark_dex_load_started` (src/loader lib.rs:27-31) acting on the
explicit marker state: `compare_exchange(false, true)` succeeds exactly from
the unset state, setting the flag.  Returns (success, new flag). -/
def try_mark_dex_load_started (flag : Bool) : Bool × Bool :=
  if flag = false then (true, true) else (false, flag)

/-- `clear_dex_load_marker` (src/loader lib.rs:33-35). -/
def clear_dex_load_marker (_flag : Bool) : Bool := false

/-- `Java_com_kapp_shell_ShellApplication_nativeLoadDex`
(src/loader lib.rs:162-217) as a transition on the marker state.  The
fallible steps are abstracted by Booleans in program order: resolving the
package code path, resolving paths and class loader, extracting the payload,
and `load_dex_core`.  (`verify_integrity` failure only logs and is not a
return path.)  Result: (final flag, load completed). -/
def nativeLoadDexApp (flag codePathOk pathsOk payloadOk loadOk : Bool) : Bool × Bool :=
  let started := try_mark_dex_load_started flag
  if started.1 = false then (started.2, false)
  else if codePathOk = false then (clear_dex_load_marker started.2, false)
  else if pathsOk = false then (clear_dex_load_marker started.2, false)
  else if payloadOk = false then (clear_dex_load_marker started.2, false)
  else if loadOk = false then (clear_dex_load_marker started.2, false)
  else (started.2, true)

/-- `Java_com_kapp_shell_ShellApplication_nativeLoadDexWithAppInfo`
(src/loader lib.rs:219-288): steps are reading `sourceDir`, reading
`dataDir`, creating the cache directory, extracting the payload, and
`load_dex_core`. -/
def nativeLoadDexWithAppInfo (flag sourceDirOk dataDirOk createCacheOk payloadOk loadOk : Bool) :
    Bool × Bool :=
  let started := try_mark_dex_load_started flag
  if started.1 = false then (started.2, false)
  else if sourceDirOk = false then (clear_dex_load_marker started.2, false)
  else if dataDirOk = false then (clear_dex_load_marker started.2, false)
  else if createCacheOk = false then (clear_dex_load_marker started.2, false)
  else if payloadOk = false then (clear_dex_load_marker started.2, false)
  else if loadOk = false then (clear_dex_load_marker started.2, false)
  else (started.2, true)

/-- `Java_com_kapp_shell_BootstrapProvider_nativeLoadDex`
(src/loader lib.rs:290-344), same step structure as the Application entry
point. -/
def nativeLoadDexProvider (flag codePathOk pathsOk payloadOk loadOk : Bool) : Bool × Bool :=
  let started := try_mark_dex_load_started flag
  if started.1 = false then (started.2, false)
  else if codePathOk = false then (clear_dex_load_marker started.2, false)
  else if pathsOk = false then (clear_dex_load_marker started.2, false)
  else if payloadOk = false then (clear_dex_load_marker started.2, false)
  else if loadOk = false then (clear_dex_load_marker started.2, false)
  else (started.2, true)

/-! ## Spec-side definitions (used only to compare the spec text against the
code for the refinement-style claims) -/

/-- Modelled from the spec (§3 wire layout): one metadata record
`[name_len: u16 LE][name: UTF-8 bytes][cipher_len: u32 LE][nonce: 12 bytes]`. -/
def specRecord (e : PackEntry) : List Nat :=
  u16le e.name.length ++ e.name ++ u32le e.encData.length ++ e.nonce

/-- Modelled from the spec (§3 payload blob): ciphertexts in order, then a
4-byte LE entry count with the records in the same order, then the 9-byte
footer `[metadata_len: u32 LE][magic "SHELL"]`. -/
def specBlobLayout (entries : List PackEntry) : List Nat :=
  (entries.map PackEntry.encData).flatten ++
    (u32le entries.length ++ (entries.map specRecord).flatten) ++
    u32le (u32le entries.length ++ (entries.map specRecord).flatten).length ++
    shellMagic

/-- Decimal digit. -/
def isDigitCh (c : Char) : Bool := decide ('0' ≤ c) && decide (c ≤ '9')

/-- Modelled from the claim wording for C5: a name of the form
`classes<k>.dex` with `k` empty or a positive decimal integer. -/
def specDexCandidate (name : List Char) : Bool :=
  "classes".toList.isPrefixOf name && ".dex".toList.isSuffixOf name &&
    decide (11 ≤ name.length) &&
    (let mid := (name.drop 7).take (name.length - 11)
     mid.isEmpty ||
       (mid.all isDigitCh && decide (0 < mid.foldl (fun a c => 10 * a + (c.toNat - 48)) 0)))

/-- Modelled from the claim wording for C5: a `.so` file directly under an
ABI subdirectory of `lib/`, i.e. `lib/<abi>/<base>.so` with `<abi>` and
`<base>` non-empty. -/
def specSoCandidate (name : List Char) : Bool :=
  match name.splitOn '/' with
  | [l, abi, base] =>
    l == "lib".toList && abi.isEmpty = false &&
      ".so".toList.isSuffixOf base && decide (3 < base.length)
  | _ => false

/-- Modelled from the claim wording for C5: the payload-candidate predicate
as the claim states it. -/
def specPayloadCandidate (name : List Char) : Bool :=
  specDexCandidate name || specSoCandidate name

/-! ## Derived forms and concrete instances used by the theorems -/

/-- The metadata block that `build_payload_blob` produces: 4-byte LE entry
count followed by the records in order. -/
def metadataBytes (entries : List PackEntry) : List Nat :=
  u32le entries.length ++ (entries.map metadataRecord).flatten

/-- Byte length of the metadata block when every nonce has its Rust type's
length 12: `4 + Σ (2 + |name| + 4 + 12)`. -/
def metadataLenOf (entries : List PackEntry) : Nat :=
  4 + (entries.map (fun e => 18 + e.name.length)).sum

/-- A 65535-byte UTF-8 name (65535 times `a`), used by the C1 counterexample. -/
def cxName : List Nat := List.replicate 65535 97

/-- Counterexample entry: maximal legal name, empty ciphertext, zero nonce. -/
def cxEntryBig : PackEntry := ⟨cxName, [], List.replicate 12 0⟩

/-- 65600 copies of `cxEntryBig`: entry count fits `u32`, every name is
65535 bytes, yet the metadata block is 4300276804 bytes — larger than
`u32::MAX`, so `metadata.len() as u32` truncates. -/
def cxEntriesBig : List PackEntry := List.replicate 65600 cxEntryBig

/-- An AEAD decryption consistent with the counterexample's ciphertexts: the
empty ciphertext decrypts to the empty plaintext, everything else fails. -/
def cxDecEmpty : List Nat → List Nat → Option (List Nat) :=
  fun _ c => if c = [] then some [] else none

/-- Length-extending mock AEAD encryption for witnesses: ciphertext is the
plaintext plus a 16-byte tag, as AES-GCM does. -/
def wEnc : List Nat → List Nat → List Nat :=
  fun _ p => p ++ List.replicate 16 0

/-- Matching mock AEAD decryption for `wEnc`. -/
def wDec : List Nat → List Nat → Option (List Nat) :=
  fun _ c => if 16 ≤ c.length then some (c.take (c.length - 16)) else none

/-! ## Basic lemmas about the codec building blocks -/

lemma u16le_length (n : Nat) : (u16le n).length = 2 := rfl

lemma u32le_length (n : Nat) : (u32le n).length = 4 := rfl

lemma shellMagic_length : shellMagic.length = 5 := rfl

lemma fromLeBytes_u16le (n : Nat) : fromLeBytes (u16le n) = n % 65536 := by
  simp only [fromLeBytes, u16le, List.foldr_cons, List.foldr_nil]
  omega

lemma fromLeBytes_u32le (n : Nat) : fromLeBytes (u32le n) = n % 4294967296 := by
  simp only [fromLeBytes, u32le, List.foldr_cons, List.foldr_nil]
  omega

lemma exbind_ok {α β : Type} (a : α) (f : α → Except String β) :
    (Except.ok a : Except String α).bind f = f a := rfl

lemma exbind_error {α β : Type} (e : String) (f : α → Except String β) :
    (Except.error e : Except String α).bind f = Except.error e := rfl

lemma readExactN_left (a b : List Nat) : readExactN (a ++ b) a.length = Except.ok (a, b) := by
  simp [readExactN, List.take_left, List.drop_left]

lemma readExactN_left' (a b : List Nat) (n : Nat) (h : a.length = n) :
    readExactN (a ++ b) n = Except.ok (a, b) := by
  subst h; exact readExactN_left a b

lemma readExactN_ok {buf : List Nat} {n : Nat} {a b : List Nat}
    (h : readExactN buf n = Except.ok (a, b)) :
    n ≤ buf.length ∧ a = buf.take n ∧ b = buf.drop n := by
  unfold readExactN at h
  split at h
  · exact ⟨by assumption, by injection h with h'; exact ⟨congrArg Prod.fst h'.symm, congrArg Prod.snd h'.symm⟩⟩
  · cases h

lemma foldl_append_chunks (g : PackEntry → List Nat) :
    ∀ (entries : List PackEntry) (init : List Nat),
      entries.foldl (fun acc e => acc ++ g e) init = init ++ (entries.map g).flatten := by
  intro entries
  induction entries with
  | nil => intro init; simp
  | cons e rest ih => intro init; simp [ih, List.append_assoc]

lemma build_payload_blob_eq (entries : List PackEntry) :
    build_payload_blob entries =
      (entries.map PackEntry.encData).flatten ++ metadataBytes entries ++
        u32le (metadataBytes entries).length ++ shellMagic := by
  unfold build_payload_blob metadataBytes
  rw [foldl_append_chunks, foldl_append_chunks]
  simp

lemma metadataRecord_length (e : PackEntry) :
    (metadataRecord e).length = 6 + e.name.length + e.nonce.length := by
  simp [metadataRecord, u16le, u32le]
  omega

lemma metadataBytes_length (entries : List PackEntry)
    (h : ∀ e ∈ entries, e.nonce.length = 12) :
    (metadataBytes entries).length = metadataLenOf entries := by
  unfold metadataBytes metadataLenOf
  simp only [List.length_append, u32le_length, List.length_flatten, List.map_map]
  have : ∀ l : List PackEntry, (∀ e ∈ l, e.nonce.length = 12) →
      (l.map (List.length ∘ metadataRecord)).sum = (l.map (fun e => 18 + e.name.length)).sum := by
    intro l
    induction l with
    | nil => intro _; rfl
    | cons e rest ih =>
      intro hl
      simp only [List.map_cons, List.sum_cons, Function.comp_apply, metadataRecord_length,
        hl e (List.mem_cons_self e rest), ih (fun x hx => hl x (List.mem_cons_of_mem e hx))]
      omega
  rw [this entries h]

lemma length_le_sum18 (entries : List PackEntry) :
    entries.length ≤ (entries.map (fun e => 18 + e.name.length)).sum := by
  induction entries with
  | nil => simp
  | cons e rest ih => simp only [List.map_cons, List.sum_cons, List.length_cons]; omega

/-! ## Lemmas and claim theorems -/

lemma parseEntries_roundtrip (entries : List PackEntry)
    (h : ∀ e ∈ entries, validUtf8 e.name = true ∧ e.name.length ≤ 65535 ∧
      e.encData.length < 4294967296 ∧ e.nonce.length = 12) :
    parseEntries entries.length ((entries.map metadataRecord).flatten) =
      Except.ok (entries.map (fun e => (e.name, e.encData.length, e.nonce))) := by
  induction entries with
  | nil => rfl
  | cons e rest ih =>
    obtain ⟨hvalid, hname, hclen, hnonce⟩ := h e (List.mem_cons_self e rest)
    have hbuf : (List.map metadataRecord (e :: rest)).flatten =
        u16le e.name.length ++ (e.name ++ (u32le e.encData.length ++
          (e.nonce ++ (List.map metadataRecord rest).flatten))) := by
      simp [metadataRecord, List.append_assoc]
    rw [List.length_cons, parseEntries, hbuf]
    rw [readExactN_left' (u16le e.name.length) _ 2 rfl, exbind_ok]
    simp only [fromLeBytes_u16le]
    rw [Nat.mod_eq_of_lt (by omega)]
    rw [readExactN_left' e.name _ e.name.length rfl, exbind_ok]
    simp only [hvalid, if_true]
    rw [readExactN_left' (u32le e.encData.length) _ 4 rfl, exbind_ok]
    rw [readExactN_left' e.nonce _ 12 hnonce, exbind_ok]
    rw [ih (fun x hx => h x (List.mem_cons_of_mem e hx)), exbind_ok]
    simp [fromLeBytes_u32le, Nat.mod_eq_of_lt hclen]

lemma decryptEntries_roundtrip (decOne : List Nat → List Nat → Option (List Nat)) :
    ∀ (pairs : List (PackEntry × List Nat)) (suffix : List Nat),
      (∀ pr ∈ pairs, decOne pr.1.nonce pr.1.encData = some pr.2) →
      decryptEntries decOne (pairs.map (fun pr => (pr.1.name, pr.1.encData.length, pr.1.nonce)))
          ((pairs.map (fun pr => pr.1.encData)).flatten ++ suffix) =
        Except.ok (pairs.map (fun pr => (pr.1.name, pr.2))) := by
  intro pairs
  induction pairs with
  | nil => intro suffix _; rfl
  | cons pr rest ih =>
    intro suffix h
    simp only [List.map_cons, List.flatten_cons]
    rw [decryptEntries, List.append_assoc]
    rw [readExactN_left' pr.1.encData _ pr.1.encData.length rfl, exbind_ok]
    simp only [h pr (List.mem_cons_self pr rest)]
    rw [ih suffix (fun x hx => h x (List.mem_cons_of_mem pr hx)), exbind_ok]

lemma decrypt_payload_footer (decOne : List Nat → List Nat → Option (List Nat))
    (pre : List Nat) (s : Nat) :
    decrypt_payload decOne (pre ++ u32le s ++ shellMagic) =
      if pre.length < s % 4294967296 then Except.error "Invalid metadata size"
      else decodeEntriesAndDecrypt decOne (pre ++ u32le s ++ shellMagic)
        (pre.length - s % 4294967296) (s % 4294967296) := by
  have hlen : (pre ++ u32le s ++ shellMagic).length = pre.length + 9 := by
    simp [u32le, shellMagic]
  simp only [decrypt_payload]
  rw [hlen, if_neg (by omega)]
  have h9 : pre.length + 9 - 9 = pre.length := by omega
  have hdrop : (pre ++ u32le s ++ shellMagic).drop pre.length = u32le s ++ shellMagic := by
    rw [List.append_assoc]
    exact List.drop_left' rfl
  have hfooter : ((pre ++ u32le s ++ shellMagic).drop pre.length).take 9 =
      u32le s ++ shellMagic := by
    rw [hdrop]
    exact List.take_of_length_le (by simp [u32le, shellMagic])
  rw [h9, hfooter]
  rw [List.drop_left' (u32le_length s)]
  rw [if_neg (fun hcon => hcon rfl)]
  rw [List.take_left' (u32le_length s), fromLeBytes_u32le]

lemma decrypt_payload_build (decOne : List Nat → List Nat → Option (List Nat))
    (pairs : List (PackEntry × List Nat))
    (hentry : ∀ pr ∈ pairs, validUtf8 pr.1.name = true ∧ pr.1.name.length ≤ 65535 ∧
        pr.1.encData.length < 4294967296 ∧ pr.1.nonce.length = 12)
    (hmeta : metadataLenOf (pairs.map Prod.fst) < 4294967296)
    (hdec : ∀ pr ∈ pairs, decOne pr.1.nonce pr.1.encData = some pr.2) :
    decrypt_payload decOne (build_payload_blob (pairs.map Prod.fst)) =
      Except.ok (pairs.map (fun pr => (pr.1.name, pr.2))) := by
  have hin : ∀ e ∈ pairs.map Prod.fst, validUtf8 e.name = true ∧ e.name.length ≤ 65535 ∧
      e.encData.length < 4294967296 ∧ e.nonce.length = 12 := by
    intro e he
    obtain ⟨pr, hpr, rfl⟩ := List.mem_map.mp he
    exact hentry pr hpr
  set entries := pairs.map Prod.fst with hentries
  have hMlen : (metadataBytes entries).length = metadataLenOf entries :=
    metadataBytes_length _ (fun e he => (hin e he).2.2.2)
  have hMlt : (metadataBytes entries).length < 4294967296 := by rw [hMlen]; exact hmeta
  have hblob : build_payload_blob entries =
      ((entries.map PackEntry.encData).flatten ++ metadataBytes entries) ++
        u32le (metadataBytes entries).length ++ shellMagic := by
    rw [build_payload_blob_eq]
  rw [hblob, decrypt_payload_footer, Nat.mod_eq_of_lt hMlt]
  have hprelen : ((entries.map PackEntry.encData).flatten ++ metadataBytes entries).length =
      (entries.map PackEntry.encData).flatten.length + (metadataBytes entries).length := by
    simp
  rw [if_neg (by omega), hprelen]
  have hstart : (entries.map PackEntry.encData).flatten.length + (metadataBytes entries).length -
      (metadataBytes entries).length = (entries.map PackEntry.encData).flatten.length := by
    omega
  rw [hstart]
  unfold decodeEntriesAndDecrypt parseBlobMetadata
  have hdropP : ((((entries.map PackEntry.encData).flatten ++ metadataBytes entries) ++
      u32le (metadataBytes entries).length ++ shellMagic)).drop
        (entries.map PackEntry.encData).flatten.length =
      metadataBytes entries ++ (u32le (metadataBytes entries).length ++ shellMagic) := by
    rw [List.append_assoc, List.append_assoc]
    rw [List.drop_left' rfl]
  rw [hdropP]
  rw [readExactN_left' (metadataBytes entries) _ (metadataBytes entries).length rfl, exbind_ok]
  have hMsplit : metadataBytes entries =
      u32le entries.length ++ (entries.map metadataRecord).flatten := rfl
  conv_lhs => rw [hMsplit]
  rw [readExactN_left' (u32le entries.length) _ 4 rfl, exbind_ok]
  have hcount : entries.length < 4294967296 := by
    have := length_le_sum18 entries
    unfold metadataLenOf at hmeta
    omega
  rw [fromLeBytes_u32le, Nat.mod_eq_of_lt hcount]
  rw [parseEntries_roundtrip entries hin, exbind_ok]
  have htotal : (((entries.map (fun e => (e.name, e.encData.length, e.nonce))).map
      (fun t => t.2.1)).sum : Nat) = (entries.map PackEntry.encData).flatten.length := by
    simp [List.map_map, List.length_flatten, Function.comp_def]
  simp only [htotal]
  rw [if_pos (le_refl _)]
  rw [Nat.sub_self, List.drop_zero]
  have h1 : entries.map (fun e => (e.name, e.encData.length, e.nonce)) =
      pairs.map (fun pr => (pr.1.name, pr.1.encData.length, pr.1.nonce)) := by
    rw [hentries, List.map_map]; rfl
  have h2 : entries.map PackEntry.encData = pairs.map (fun pr => pr.1.encData) := by
    rw [hentries, List.map_map]; rfl
  rw [h1, h2]
  simp only [List.append_assoc]
  exact decryptEntries_roundtrip decOne pairs _ hdec

lemma parseEntries_ok_le : ∀ (n : Nat) (buf : List Nat) (out : List (List Nat × Nat × List Nat)),
    parseEntries n buf = Except.ok out → 18 * n ≤ buf.length := by
  intro n
  induction n with
  | zero => intro buf out _; omega
  | succ n ih =>
    intro buf out h
    rw [parseEntries] at h
    cases h2 : readExactN buf 2 with
    | error e => rw [h2, exbind_error] at h; exact Except.noConfusion h
    | ok p1 =>
      rw [h2, exbind_ok] at h
      obtain ⟨hle2, _, hb1⟩ := readExactN_ok h2
      cases h3 : readExactN p1.2 (fromLeBytes p1.1) with
      | error e => rw [h3, exbind_error] at h; exact Except.noConfusion h
      | ok p2 =>
        rw [h3, exbind_ok] at h
        obtain ⟨hleN, _, hb2⟩ := readExactN_ok h3
        by_cases hv : validUtf8 p2.1
        · rw [if_pos hv] at h
          cases h4 : readExactN p2.2 4 with
          | error e => rw [h4, exbind_error] at h; exact Except.noConfusion h
          | ok p3 =>
            rw [h4, exbind_ok] at h
            obtain ⟨hle4, _, hb3⟩ := readExactN_ok h4
            cases h5 : readExactN p3.2 12 with
            | error e => rw [h5, exbind_error] at h; exact Except.noConfusion h
            | ok p4 =>
              rw [h5, exbind_ok] at h
              obtain ⟨hle12, _, hb4⟩ := readExactN_ok h5
              cases h6 : parseEntries n p4.2 with
              | error e => rw [h6, exbind_error] at h; exact Except.noConfusion h
              | ok rest =>
                have hrec := ih p4.2 rest h6
                rw [hb4, List.length_drop] at hrec
                rw [hb3, List.length_drop] at hrec hle12
                rw [hb2, List.length_drop] at hrec hle12 hle4
                rw [hb1, List.length_drop] at hrec hle12 hle4 hleN
                omega
        · rw [if_neg hv] at h; exact Except.noConfusion h

lemma flatten_replicate_length (n : Nat) (xs : List Nat) :
    ((List.replicate n xs).flatten).length = n * xs.length := by
  induction n with
  | zero => simp
  | succ n ih =>
    rw [List.replicate_succ, List.flatten_cons, List.length_append, ih]
    ring

lemma flatten_replicate_nil (n : Nat) : ((List.replicate n ([] : List Nat)).flatten) = [] :=
  List.eq_nil_of_length_eq_zero (by rw [flatten_replicate_length]; simp)

lemma flatten_replicate_drop (xs : List Nat) :
    ∀ (k n r : Nat), k ≤ n →
      ((List.replicate n xs).flatten).drop (k * xs.length + r) =
        ((List.replicate (n - k) xs).flatten).drop r := by
  intro k
  induction k with
  | zero => intro n r _; simp
  | succ k ih =>
    intro n r hk
    obtain ⟨m, rfl⟩ : ∃ m, n = m + 1 := ⟨n - 1, by omega⟩
    rw [List.replicate_succ, List.flatten_cons]
    have harith : (k + 1) * xs.length + r = xs.length + (k * xs.length + r) := by ring
    rw [harith, List.drop_append, ih m r (by omega)]
    have hmk : m + 1 - (k + 1) = m - k := by omega
    rw [hmk]

lemma cxRecord_length : (metadataRecord cxEntryBig).length = 65553 := by
  have h1 : cxEntryBig.name = cxName := rfl
  have h2 : cxEntryBig.nonce = List.replicate 12 0 := rfl
  rw [metadataRecord_length, h1, h2, cxName, List.length_replicate, List.length_replicate]

lemma cxM_eq : metadataBytes cxEntriesBig =
    u32le 65600 ++ (List.replicate 65600 (metadataRecord cxEntryBig)).flatten := by
  unfold metadataBytes cxEntriesBig
  rw [List.map_replicate, List.length_replicate]

lemma cxM_length : (metadataBytes cxEntriesBig).length = 4300276804 := by
  rw [cxM_eq, List.length_append, flatten_replicate_length, cxRecord_length, u32le_length]

lemma cxBlob_eq : build_payload_blob cxEntriesBig =
    metadataBytes cxEntriesBig ++ u32le 4300276804 ++ shellMagic := by
  rw [build_payload_blob_eq, cxM_length]
  have hnil : (cxEntriesBig.map PackEntry.encData).flatten = [] := by
    have : cxEntriesBig.map PackEntry.encData = List.replicate 65600 [] := by
      unfold cxEntriesBig
      rw [List.map_replicate]
      rfl
    rw [this, flatten_replicate_nil]
  rw [hnil, List.nil_append]

lemma cxMetadataSlice : (metadataBytes cxEntriesBig).drop 4294967296 =
    List.replicate 65252 97 ++ (u32le 0 ++ (List.replicate 12 0 ++
      (List.replicate 80 (metadataRecord cxEntryBig)).flatten)) := by
  rw [cxM_eq]
  rw [show (4294967296 : Nat) = (u32le 65600).length + 4294967292 from by
    rw [u32le_length]]
  rw [List.drop_append]
  rw [show (4294967292 : Nat) = 65519 * (metadataRecord cxEntryBig).length + 285 from by
    rw [cxRecord_length]]
  rw [flatten_replicate_drop _ 65519 65600 285 (by norm_num)]
  rw [show (65600 : Nat) - 65519 = 81 from by norm_num]
  rw [show (81 : Nat) = 80 + 1 from by norm_num, List.replicate_succ, List.flatten_cons]
  have hrec : metadataRecord cxEntryBig =
      u16le 65535 ++ (cxName ++ (u32le 0 ++ List.replicate 12 0)) := by
    have h1 : cxEntryBig.name = cxName := rfl
    have h2 : cxEntryBig.nonce = List.replicate 12 0 := rfl
    have h3 : cxEntryBig.encData = [] := rfl
    rw [metadataRecord, h1, h2, h3, cxName, List.length_replicate, List.length_nil]
    simp only [List.append_assoc]
  set J80 := (List.replicate 80 (metadataRecord cxEntryBig)).flatten with hJ80
  rw [hrec]
  simp only [List.append_assoc]
  rw [show (285 : Nat) = (u16le 65535).length + 283 from by rw [u16le_length],
    List.drop_append,
    List.drop_append_of_le_length (by rw [cxName, List.length_replicate]; norm_num),
    cxName, List.drop_replicate, show (65535 : Nat) - 283 = 65252 from by norm_num]

theorem c1_claim_counterexample :
    decrypt_payload cxDecEmpty (build_payload_blob cxEntriesBig) ≠
      Except.ok (cxEntriesBig.map (fun e => (e.name, ([] : List Nat)))) := by
  rw [cxBlob_eq, decrypt_payload_footer]
  rw [show (4300276804 : Nat) % 4294967296 = 5309508 from by norm_num]
  rw [cxM_length]
  rw [if_neg (by norm_num)]
  rw [show (4300276804 : Nat) - 5309508 = 4294967296 from by norm_num]
  unfold decodeEntriesAndDecrypt parseBlobMetadata
  have hdrop1 : ((metadataBytes cxEntriesBig ++ u32le 4300276804 ++ shellMagic)).drop 4294967296 =
      (metadataBytes cxEntriesBig).drop 4294967296 ++ (u32le 4300276804 ++ shellMagic) := by
    rw [List.append_assoc]
    exact List.drop_append_of_le_length (by rw [cxM_length]; norm_num)
  rw [hdrop1, cxMetadataSlice]
  have hslice_len : (List.replicate 65252 (97 : Nat) ++ (u32le 0 ++ (List.replicate 12 0 ++
      (List.replicate 80 (metadataRecord cxEntryBig)).flatten))).length = 5309508 := by
    rw [List.length_append, List.length_append, List.length_append, List.length_replicate,
      List.length_replicate, u32le_length, flatten_replicate_length, cxRecord_length]
  rw [readExactN_left' _ _ 5309508 hslice_len, exbind_ok]
  rw [show List.replicate 65252 (97 : Nat) = List.replicate 4 97 ++ List.replicate 65248 97 from by
    rw [← List.replicate_add]]
  rw [List.append_assoc]
  rw [readExactN_left' (List.replicate 4 (97 : Nat)) _ 4 (by rw [List.length_replicate]), exbind_ok]
  rw [show fromLeBytes (List.replicate 4 (97 : Nat)) = 1633771873 from by decide]
  cases hparse : parseEntries 1633771873 (List.replicate 65248 (97 : Nat) ++ (u32le 0 ++
      (List.replicate 12 0 ++ (List.replicate 80 (metadataRecord cxEntryBig)).flatten))) with
  | ok out =>
    have hle := parseEntries_ok_le _ _ _ hparse
    have hlen2 : (List.replicate 65248 (97 : Nat) ++ (u32le 0 ++ (List.replicate 12 0 ++
        (List.replicate 80 (metadataRecord cxEntryBig)).flatten))).length = 5309504 := by
      rw [List.length_append, List.length_append, List.length_append, List.length_replicate,
        List.length_replicate, u32le_length, flatten_replicate_length, cxRecord_length]
    rw [hlen2] at hle
    norm_num at hle
  | error msg =>
    rw [exbind_error]
    exact fun hcon => Except.noConfusion hcon

lemma validUtf8_cons_a (l : List Nat) : validUtf8 (97 :: l) = validUtf8 l := rfl

lemma validUtf8_replicate_a : ∀ n, validUtf8 (List.replicate n 97) = true := by
  intro n
  induction n with
  | zero => rfl
  | succ n ih =>
    rw [List.replicate_succ, validUtf8_cons_a]
    exact ih

lemma cxEntriesBig_claim_premises :
    (∀ e ∈ cxEntriesBig, validUtf8 e.name = true ∧ e.name.length ≤ 65535 ∧
        e.encData.length < 4294967296 ∧ e.nonce.length = 12) ∧
    cxEntriesBig.length < 4294967296 ∧
    (∀ nonce, cxDecEmpty nonce [] = some []) := by
  refine ⟨?_, ?_, fun nonce => rfl⟩
  · intro e he
    have he' : e = cxEntryBig := List.eq_of_mem_replicate he
    subst he'
    refine ⟨validUtf8_replicate_a 65535, ?_, ?_, ?_⟩
    · rw [show cxEntryBig.name = cxName from rfl, cxName, List.length_replicate]
    · rw [show cxEntryBig.encData = [] from rfl]; norm_num
    · rw [show cxEntryBig.nonce = List.replicate 12 0 from rfl, List.length_replicate]
  · rw [show cxEntriesBig = List.replicate 65600 cxEntryBig from rfl, List.length_replicate]
    norm_num

theorem c1_roundtrip_amended
    (enc : List Nat → List Nat → List Nat) (dec : List Nat → List Nat → Option (List Nat))
    (hencdec : ∀ nonce p, dec nonce (enc nonce p) = some p)
    (P : List (List Nat × List Nat × List Nat))
    (hside : ∀ t ∈ P, validUtf8 t.1 = true ∧ t.1.length ≤ 65535 ∧
        (enc t.2.2 t.2.1).length < 4294967296 ∧ t.2.2.length = 12)
    (hmeta : metadataLenOf (P.map (fun t => ⟨t.1, enc t.2.2 t.2.1, t.2.2⟩)) < 4294967296) :
    decrypt_payload dec (build_payload_blob (P.map (fun t => ⟨t.1, enc t.2.2 t.2.1, t.2.2⟩))) =
      Except.ok (P.map (fun t => (t.1, t.2.1))) := by
  have h := decrypt_payload_build dec
    (P.map (fun t => (⟨t.1, enc t.2.2 t.2.1, t.2.2⟩, t.2.1)))
    (by
      intro pr hpr
      obtain ⟨t, ht, rfl⟩ := List.mem_map.mp hpr
      exact hside t ht)
    (by rw [List.map_map]; exact hmeta)
    (by
      intro pr hpr
      obtain ⟨t, ht, rfl⟩ := List.mem_map.mp hpr
      exact hencdec t.2.2 t.2.1)
  rw [List.map_map, List.map_map] at h
  exact h

theorem c1_roundtrip_witness :
    (∀ nonce p, wDec nonce (wEnc nonce p) = some p) ∧
    decrypt_payload wDec (build_payload_blob (([(([97], [1, 2, 3], List.replicate 12 0))] :
        List (List Nat × List Nat × List Nat)).map
      (fun t => ⟨t.1, wEnc t.2.2 t.2.1, t.2.2⟩))) = Except.ok [([97], [1, 2, 3])] := by
  have hwd : ∀ nonce p, wDec nonce (wEnc nonce p) = some p := by
    intro nonce p
    unfold wDec wEnc
    rw [if_pos (by simp)]
    congr 1
    rw [List.length_append, List.length_replicate,
      show p.length + 16 - 16 = p.length from by omega]
    exact List.take_left p _
  refine ⟨hwd, ?_⟩
  have h := c1_roundtrip_amended wEnc wDec hwd [([97], [1, 2, 3], List.replicate 12 0)]
    (by
      intro t ht
      rw [List.mem_singleton] at ht
      subst ht
      exact ⟨by decide, by decide, by decide, by decide⟩)
    (by decide)
  simpa using h

theorem c2_blob_layout (entries : List PackEntry) :
    build_payload_blob entries = specBlobLayout entries := by
  rw [build_payload_blob_eq]
  unfold specBlobLayout metadataBytes
  rfl

theorem c3_footer_errors : ∀ (decOne : List Nat → List Nat → Option (List Nat)) (data : List Nat),
    (data.length < 9 → decrypt_payload decOne data = Except.error "Payload too small") ∧
    (9 ≤ data.length → data.drop (data.length - 5) ≠ shellMagic →
      decrypt_payload decOne data = Except.error "No shell payload found") := by
  intro decOne data
  constructor
  · intro h
    simp only [decrypt_payload]
    rw [if_pos h]
  · intro h9 hmagic
    simp only [decrypt_payload]
    rw [if_neg (by omega)]
    have hfoot : ((data.drop (data.length - 9)).take 9) = data.drop (data.length - 9) :=
      List.take_of_length_le (by rw [List.length_drop]; omega)
    rw [hfoot]
    have hdd : (data.drop (data.length - 9)).drop 4 = data.drop (data.length - 5) := by
      rw [List.drop_drop]
      have : data.length - 9 + 4 = data.length - 5 := by omega
      rw [this]
    rw [hdd, if_pos hmagic]

theorem c3_footer_errors_witness :
    ([] : List Nat).length < 9 ∧
    decrypt_payload cxDecEmpty [] = Except.error "Payload too small" ∧
    9 ≤ (List.replicate 9 (0 : Nat)).length ∧
    (List.replicate 9 (0 : Nat)).drop ((List.replicate 9 (0 : Nat)).length - 5) ≠ shellMagic ∧
    decrypt_payload cxDecEmpty (List.replicate 9 0) = Except.error "No shell payload found" :=
  ⟨by decide, (c3_footer_errors cxDecEmpty []).1 (by decide), by decide, by decide,
    (c3_footer_errors cxDecEmpty (List.replicate 9 0)).2 (by decide) (by decide)⟩

theorem c4_digest_policy : ∀ (sha : List Nat → List Nat) (payloadHash : List Nat)
    (decOne : List Nat → List Nat → Option (List Nat)) (data : List Nat),
    (payloadHash ≠ List.replicate 32 0 → sha data ≠ payloadHash →
      extract_payload_check sha payloadHash decOne data true =
        Except.error "Payload integrity check failed") ∧
    (payloadHash = List.replicate 32 0 →
      extract_payload_check sha payloadHash decOne data true = decrypt_payload decOne data) := by
  intro sha payloadHash decOne data
  constructor
  · intro hnz hne
    unfold extract_payload_check
    rw [if_pos rfl, if_pos hne, if_pos hnz]
  · intro hz
    unfold extract_payload_check
    rw [if_pos rfl]
    by_cases hsh : sha data ≠ payloadHash
    · rw [if_pos hsh, if_neg (fun hcon => hcon hz)]
    · rw [if_neg hsh]

theorem c4_digest_policy_witness :
    (List.replicate 32 (2 : Nat) ≠ List.replicate 32 0) ∧
    ((fun _ : List Nat => List.replicate 32 (1 : Nat)) [] ≠ List.replicate 32 2) ∧
    extract_payload_check (fun _ => List.replicate 32 1) (List.replicate 32 2) cxDecEmpty [] true =
      Except.error "Payload integrity check failed" ∧
    extract_payload_check (fun _ => List.replicate 32 1) (List.replicate 32 0) cxDecEmpty [] true =
      decrypt_payload cxDecEmpty [] :=
  ⟨by decide, by decide,
    (c4_digest_policy (fun _ => List.replicate 32 1) (List.replicate 32 2) cxDecEmpty []).1
      (by decide) (by decide),
    (c4_digest_policy (fun _ => List.replicate 32 1) (List.replicate 32 0) cxDecEmpty []).2 rfl⟩

theorem c10_parser_totality : ∀ (decOne : List Nat → List Nat → Option (List Nat)),
    (∀ (pre : List Nat) (s : Nat), pre.length < s % 4294967296 →
      decrypt_payload decOne (pre ++ u32le s ++ shellMagic) =
        Except.error "Invalid metadata size") ∧
    (∀ (numFiles : Nat) (mrest : List Nat), mrest.length < 18 * numFiles →
      ∃ msg, parseEntries numFiles mrest = Except.error msg) ∧
    (∀ (n : Nat) (nameBytes tail : List Nat), validUtf8 nameBytes = false →
      nameBytes.length ≤ 65535 →
      parseEntries (n + 1) (u16le nameBytes.length ++ nameBytes ++ tail) =
        Except.error "invalid utf-8 sequence") ∧
    (∀ (data : List Nat) (mstart msize : Nat) (msg : String),
      parseBlobMetadata data mstart msize = Except.error msg →
      decodeEntriesAndDecrypt decOne data mstart msize = Except.error msg) ∧
    (∀ (data : List Nat) (mstart msize : Nat)
        (entries : List (List Nat × Nat × List Nat)),
      parseBlobMetadata data mstart msize = Except.ok entries →
      mstart < (entries.map (fun t => t.2.1)).sum →
      decodeEntriesAndDecrypt decOne data mstart msize =
        Except.error "Invalid payload offset") := by
  intro decOne
  refine ⟨?_, ?_, ?_, ?_, ?_⟩
  · intro pre s h
    rw [decrypt_payload_footer, if_pos h]
  · intro numFiles mrest h
    cases hp : parseEntries numFiles mrest with
    | ok out =>
      have := parseEntries_ok_le numFiles mrest out hp
      omega
    | error msg => exact ⟨msg, rfl⟩
  · intro n nameBytes tail hbad hlen
    rw [parseEntries, List.append_assoc]
    rw [readExactN_left' (u16le nameBytes.length) _ 2 rfl, exbind_ok]
    rw [fromLeBytes_u16le, Nat.mod_eq_of_lt (by omega)]
    rw [readExactN_left' nameBytes _ nameBytes.length rfl, exbind_ok]
    rw [hbad]
    rfl
  · intro data mstart msize msg h
    unfold decodeEntriesAndDecrypt
    rw [h, exbind_error]
  · intro data mstart msize entries h hsum
    unfold decodeEntriesAndDecrypt
    rw [h, exbind_ok, if_neg (by omega)]

theorem c10_parser_totality_witness :
    (([] : List Nat).length < 1 % 4294967296 ∧
      decrypt_payload cxDecEmpty ([] ++ u32le 1 ++ shellMagic) =
        Except.error "Invalid metadata size") ∧
    (([] : List Nat).length < 18 * 1 ∧ ∃ msg, parseEntries 1 [] = Except.error msg) ∧
    (validUtf8 [255] = false ∧
      parseEntries 1 (u16le ([255] : List Nat).length ++ [255] ++ List.replicate 16 0) =
        Except.error "invalid utf-8 sequence") ∧
    (parseBlobMetadata [] 0 1 = Except.error "failed to fill whole buffer" ∧
      decodeEntriesAndDecrypt cxDecEmpty [] 0 1 =
        Except.error "failed to fill whole buffer") ∧
    (parseBlobMetadata (u32le 1 ++ (u16le 0 ++ u32le 5 ++ List.replicate 12 0)) 0 22 =
        Except.ok [([], 5, List.replicate 12 0)] ∧
      decodeEntriesAndDecrypt cxDecEmpty
          (u32le 1 ++ (u16le 0 ++ u32le 5 ++ List.replicate 12 0)) 0 22 =
        Except.error "Invalid payload offset") :=
  ⟨⟨by decide, (c10_parser_totality cxDecEmpty).1 [] 1 (by decide)⟩,
    ⟨by decide, (c10_parser_totality cxDecEmpty).2.1 1 [] (by decide)⟩,
    ⟨by decide, (c10_parser_totality cxDecEmpty).2.2.1 0 [255] (List.replicate 16 0)
      (by decide) (by decide)⟩,
    ⟨by decide, (c10_parser_totality cxDecEmpty).2.2.2.1 [] 0 1 _ (by decide)⟩,
    ⟨by decide, (c10_parser_totality cxDecEmpty).2.2.2.2
      (u32le 1 ++ (u16le 0 ++ u32le 5 ++ List.replicate 12 0)) 0 22
      [([], 5, List.replicate 12 0)] (by decide) (by decide)⟩⟩

lemma prefix_suffix_factor (p suf name : List Char) (c : Char)
    (hd : suf[0]? = some c) (hcp : c ∉ p)
    (hp : p <+: name) (hs : suf <:+ name) :
    ∃ mid, name = p ++ mid ++ suf := by
  obtain ⟨t, rfl⟩ := hp
  obtain ⟨s, hseq⟩ := hs
  by_cases hlen : p.length ≤ s.length
  · refine ⟨s.drop p.length, ?_⟩
    have htake : s.take p.length = p := by
      have h := congrArg (List.take p.length) hseq
      rw [List.take_append_of_le_length hlen, List.take_left] at h
      exact h
    calc p ++ t = s ++ suf := hseq.symm
      _ = (s.take p.length ++ s.drop p.length) ++ suf := by rw [List.take_append_drop]
      _ = p ++ s.drop p.length ++ suf := by rw [htake]
  · exfalso
    have h := congrArg (fun l => l[s.length]?) hseq
    simp only [List.getElem?_append_right (le_refl s.length), Nat.sub_self] at h
    rw [List.getElem?_append_left (by omega)] at h
    rw [hd] at h
    exact hcp (List.getElem?_mem h.symm)

lemma suffix_getLast (suf name : List Char) (c : Char)
    (hd : suf.getLast? = some c) (hs : suf <:+ name) : name.getLast? = some c := by
  obtain ⟨s, rfl⟩ := hs
  rw [List.getLast?_append, hd]
  rfl

theorem c5_candidate_counterexample :
    is_payload_entry "classesx.dex".toList = true ∧
    specPayloadCandidate "classesx.dex".toList = false := by decide

theorem c5_candidate_amended : ∀ name : List Char,
    is_payload_entry name = true ↔
      ((∃ mid, name = "classes".toList ++ mid ++ ".dex".toList) ∨
       (∃ mid, name = "lib/".toList ++ mid ++ ".so".toList)) := by
  intro name
  unfold is_payload_entry
  rw [Bool.or_eq_true, Bool.and_eq_true, Bool.and_eq_true]
  rw [List.isPrefixOf_iff_prefix, List.isSuffixOf_iff_suffix,
    List.isPrefixOf_iff_prefix, List.isSuffixOf_iff_suffix]
  constructor
  · rintro (⟨hp, hs⟩ | ⟨hp, hs⟩)
    · exact Or.inl (prefix_suffix_factor _ _ _ '.' (by decide) (by decide) hp hs)
    · exact Or.inr (prefix_suffix_factor _ _ _ '.' (by decide) (by decide) hp hs)
  · rintro (⟨mid, rfl⟩ | ⟨mid, rfl⟩)
    · refine Or.inl ⟨⟨mid ++ ".dex".toList, by simp [List.append_assoc]⟩,
        ⟨"classes".toList ++ mid, by simp [List.append_assoc]⟩⟩
    · refine Or.inr ⟨⟨mid ++ ".so".toList, by simp [List.append_assoc]⟩,
        ⟨"lib/".toList ++ mid, by simp [List.append_assoc]⟩⟩

lemma should_keep_lib_iff (name : List Char) (kl : List (List Char)) :
    should_keep_lib name kl = true ↔
      ∃ kept ∈ kl, rustFileName name = kept ∨
        rustFileName name = "lib".toList ++ kept ++ ".so".toList ∨
        rustFileName name = kept ++ ".so".toList := by
  unfold should_keep_lib
  rw [List.any_eq_true]
  constructor
  · rintro ⟨kept, hmem, hcond⟩
    refine ⟨kept, hmem, ?_⟩
    simp only [Bool.or_eq_true, beq_iff_eq] at hcond
    tauto
  · rintro ⟨kept, hmem, hcond⟩
    refine ⟨kept, hmem, ?_⟩
    simp only [Bool.or_eq_true, beq_iff_eq]
    tauto

theorem c6_keep_lib_policy : ∀ (name : List Char) (buffer : List Nat)
    (kd kp : List (List Nat)) (kl : List (List Char)),
    ("lib/".toList <+: name) → (".so".toList <:+ name) →
    (((classifyEntry name buffer kd kp kl = Disposition.keepPlain) ↔
        ∃ kept ∈ kl, rustFileName name = kept ∨
          rustFileName name = "lib".toList ++ kept ++ ".so".toList ∨
          rustFileName name = kept ++ ".so".toList) ∧
      classifyEntry "lib/arm64-v8a/libfoo.so".toList buffer kd kp [("foo".toList)] =
        Disposition.keepPlain ∧
      classifyEntry "lib/arm64-v8a/foo.so".toList buffer kd kp [("foo".toList)] =
        Disposition.keepPlain ∧
      classifyEntry "lib/arm64-v8a/libfoobar.so".toList buffer kd kp [("foo".toList)] =
        Disposition.encrypted) := by
  intro name buffer kd kp kl hp hs
  have hcand : is_payload_entry name = true := by
    unfold is_payload_entry
    rw [Bool.or_eq_true]
    right
    rw [Bool.and_eq_true, List.isPrefixOf_iff_prefix, List.isSuffixOf_iff_suffix]
    exact ⟨hp, hs⟩
  have hlast : name.getLast? = some 'o' := suffix_getLast _ _ _ (by decide) hs
  have hnotdex : ".dex".toList.isSuffixOf name = false := by
    rw [← Bool.not_eq_true, List.isSuffixOf_iff_suffix]
    intro hcon
    have := suffix_getLast _ _ 'x' (by decide) hcon
    rw [hlast] at this
    exact absurd this (by decide)
  have hso : ".so".toList.isSuffixOf name = true := List.isSuffixOf_iff_suffix.mpr hs
  refine ⟨?_, ?_, ?_, ?_⟩
  · unfold classifyEntry
    rw [hcand, hnotdex, hso]
    simp only [Bool.false_and, Bool.true_and]
    rw [if_neg (by simp)]
    rw [if_neg (by simp)]
    by_cases hk : should_keep_lib name kl = true
    · rw [hk, if_pos rfl]
      simp only [true_iff]
      exact (should_keep_lib_iff name kl).mp hk
    · rw [Bool.not_eq_true] at hk
      rw [hk, if_neg (by simp)]
      constructor
      · intro hcon
        exact absurd hcon (by simp)
      · intro hex
        have := (should_keep_lib_iff name kl).mpr hex
        rw [hk] at this
        exact absurd this (by simp)
  · unfold classifyEntry
    rw [if_neg (by decide), if_neg (by
      intro hcon
      rw [show (".dex".toList.isSuffixOf "lib/arm64-v8a/libfoo.so".toList) = false from by decide,
        Bool.false_and] at hcon
      exact Bool.false_ne_true hcon), if_pos (by decide)]
  · unfold classifyEntry
    rw [if_neg (by decide), if_neg (by
      intro hcon
      rw [show (".dex".toList.isSuffixOf "lib/arm64-v8a/foo.so".toList) = false from by decide,
        Bool.false_and] at hcon
      exact Bool.false_ne_true hcon), if_pos (by decide)]
  · unfold classifyEntry
    rw [if_neg (by decide), if_neg (by
      intro hcon
      rw [show (".dex".toList.isSuffixOf "lib/arm64-v8a/libfoobar.so".toList) = false from by decide,
        Bool.false_and] at hcon
      exact Bool.false_ne_true hcon), if_neg (by decide)]

theorem c6_keep_lib_policy_witness :
    ("lib/".toList <+: "lib/arm64-v8a/libfoo.so".toList) ∧
    (".so".toList <:+ "lib/arm64-v8a/libfoo.so".toList) ∧
    classifyEntry "lib/arm64-v8a/libfoo.so".toList [] [] [] [("foo".toList)] =
      Disposition.keepPlain ∧
    classifyEntry "lib/arm64-v8a/libfoobar.so".toList [] [] [] [("foo".toList)] =
      Disposition.encrypted :=
  ⟨by decide, by decide,
    (c6_keep_lib_policy "lib/arm64-v8a/libfoo.so".toList [] [] [] [("foo".toList)]
      (by decide) (by decide)).2.1,
    (c6_keep_lib_policy "lib/arm64-v8a/libfoo.so".toList [] [] [] [("foo".toList)]
      (by decide) (by decide)).2.2.2⟩

theorem c7_empty_selection_counterexample :
    noPayloadEntriesError [("classes.dex".toList, [76, 102, 111, 111, 59])]
      [[76, 102, 111, 111, 59]] [] [] = true ∧
    ([("classes.dex".toList, [76, 102, 111, 111, 59])].any
      (fun f => is_payload_entry f.1)) = true := by decide

theorem c7_empty_selection_amended :
    ∀ (files : List (List Char × List Nat)) (kd kp : List (List Nat)) (kl : List (List Char)),
      noPayloadEntriesError files kd kp kl = true ↔
        ∀ f ∈ files, classifyEntry f.1 f.2 kd kp kl ≠ Disposition.encrypted := by
  intro files kd kp kl
  unfold noPayloadEntriesError collectSelected
  rw [List.isEmpty_iff, List.filter_eq_nil_iff]
  constructor
  · intro h f hf
    have := h f hf
    simpa using this
  · intro h f hf
    simpa using h f hf

lemma mem_insertByKey (p x : Nat × List Nat) :
    ∀ l, x ∈ insertByKey p l ↔ x = p ∨ x ∈ l := by
  intro l
  induction l with
  | nil => simp [insertByKey]
  | cons q rest ih =>
    unfold insertByKey
    by_cases hle : q.1 ≤ p.1
    · rw [if_pos hle]
      simp only [List.mem_cons, ih]
      tauto
    · rw [if_neg hle]
      simp only [List.mem_cons]

lemma sorted_insertByKey (p : Nat × List Nat) :
    ∀ l, List.Pairwise (fun a b : Nat × List Nat => a.1 ≤ b.1) l →
      List.Pairwise (fun a b : Nat × List Nat => a.1 ≤ b.1) (insertByKey p l) := by
  intro l
  induction l with
  | nil => intro _; simp [insertByKey]
  | cons q rest ih =>
    intro h
    rw [List.pairwise_cons] at h
    unfold insertByKey
    by_cases hle : q.1 ≤ p.1
    · rw [if_pos hle, List.pairwise_cons]
      refine ⟨?_, ih h.2⟩
      intro x hx
      rw [mem_insertByKey] at hx
      rcases hx with rfl | hx
      · omega
      · exact h.1 x hx
    · rw [if_neg hle, List.pairwise_cons]
      refine ⟨?_, List.pairwise_cons.mpr h⟩
      intro x hx
      rcases List.mem_cons.mp hx with rfl | hx
      · omega
      · have := h.1 x hx
        omega

lemma length_insertByKey (p : Nat × List Nat) :
    ∀ l, (insertByKey p l).length = l.length + 1 := by
  intro l
  induction l with
  | nil => rfl
  | cons q rest ih =>
    unfold insertByKey
    by_cases hle : q.1 ≤ p.1
    · rw [if_pos hle]
      simp only [List.length_cons, ih]
    · rw [if_neg hle]
      simp only [List.length_cons]

lemma sortByKeyStable_invariant :
    ∀ (l acc : List (Nat × List Nat)),
      (l.foldl (fun acc p => insertByKey p acc) acc).length = acc.length + l.length ∧
      (List.Pairwise (fun a b : Nat × List Nat => a.1 ≤ b.1) acc →
        List.Pairwise (fun a b : Nat × List Nat => a.1 ≤ b.1)
          (l.foldl (fun acc p => insertByKey p acc) acc)) := by
  intro l
  induction l with
  | nil => intro acc; exact ⟨rfl, fun h => h⟩
  | cons p rest ih =>
    intro acc
    constructor
    · rw [List.foldl_cons, (ih (insertByKey p acc)).1, length_insertByKey]
      simp only [List.length_cons]
      omega
    · intro h
      rw [List.foldl_cons]
      exact (ih (insertByKey p acc)).2 (sorted_insertByKey p acc h)

lemma length_sortByKeyStable (l : List (Nat × List Nat)) :
    (sortByKeyStable l).length = l.length := by
  unfold sortByKeyStable
  rw [(sortByKeyStable_invariant l []).1]
  simp

lemma sorted_sortByKeyStable (l : List (Nat × List Nat)) :
    List.Pairwise (fun a b : Nat × List Nat => a.1 ≤ b.1) (sortByKeyStable l) := by
  unfold sortByKeyStable
  exact (sortByKeyStable_invariant l []).2 List.Pairwise.nil

lemma numberDexFrom_map_fst (l : List (Nat × List Nat)) :
    ∀ k, (numberDexFrom k l).map Prod.fst =
      (List.range l.length).map (fun i => dex_name_for_index (k + i)) := by
  induction l with
  | nil => intro k; rfl
  | cons e rest ih =>
    intro k
    simp only [numberDexFrom, List.map_cons, List.length_cons]
    rw [List.range_succ_eq_map, List.map_cons, ih (k + 1), List.map_map, Nat.add_zero]
    congr 1
    apply List.map_congr_left
    intro a _
    simp only [Function.comp_apply, Nat.succ_eq_add_one]
    congr 1
    omega

lemma numberDexFrom_map_snd (l : List (Nat × List Nat)) :
    ∀ k, (numberDexFrom k l).map Prod.snd = l.map Prod.snd := by
  induction l with
  | nil => intro k; rfl
  | cons e rest ih =>
    intro k
    simp only [numberDexFrom, List.map_cons, ih (k + 1)]

theorem c8_renumbering : ∀ (bootstrap retained : List (Nat × List Nat)),
    ((repack_dex_sections bootstrap retained).map Prod.fst =
      (List.range (bootstrap.length + retained.length)).map
        (fun i => dex_name_for_index (i + 1))) ∧
    ((repack_dex_sections bootstrap retained).map Prod.snd =
      (sortByKeyStable bootstrap).map Prod.snd ++ (sortByKeyStable retained).map Prod.snd) ∧
    List.Pairwise (fun a b : Nat × List Nat => a.1 ≤ b.1) (sortByKeyStable bootstrap) ∧
    List.Pairwise (fun a b : Nat × List Nat => a.1 ≤ b.1) (sortByKeyStable retained) ∧
    dex_name_for_index 1 = "classes.dex".toList ∧
    (∀ k, 1 < k →
      dex_name_for_index k = "classes".toList ++ (Nat.repr k).toList ++ ".dex".toList) := by
  intro bootstrap retained
  refine ⟨?_, ?_, sorted_sortByKeyStable bootstrap, sorted_sortByKeyStable retained, rfl, ?_⟩
  · unfold repack_dex_sections
    rw [List.map_append, numberDexFrom_map_fst, numberDexFrom_map_fst]
    rw [length_sortByKeyStable, length_sortByKeyStable, List.range_add, List.map_append,
      List.map_map]
    congr 1
    · apply List.map_congr_left
      intro a _
      congr 1
      omega
    · apply List.map_congr_left
      intro a _
      simp only [Function.comp_apply]
      congr 1
      omega
  · unfold repack_dex_sections
    rw [List.map_append, numberDexFrom_map_snd, numberDexFrom_map_snd]
  · intro k hk
    unfold dex_name_for_index
    rw [if_neg (by omega)]

theorem c8_renumbering_witness :
    (1 : Nat) < 2 ∧
    dex_name_for_index 2 = "classes".toList ++ (Nat.repr 2).toList ++ ".dex".toList :=
  ⟨by decide, (c8_renumbering [] []).2.2.2.2.2 2 (by decide)⟩

theorem c9_idempotence_flag :
    (try_mark_dex_load_started false = (true, true)) ∧
    (try_mark_dex_load_started true = (false, true)) ∧
    (∀ b, clear_dex_load_marker b = false) ∧
    (∀ b, (try_mark_dex_load_started (clear_dex_load_marker b)).1 = true) ∧
    (∀ a b c d, nativeLoadDexApp true a b c d = (true, false)) ∧
    (∀ a b c d e, nativeLoadDexWithAppInfo true a b c d e = (true, false)) ∧
    (∀ a b c d, nativeLoadDexProvider true a b c d = (true, false)) ∧
    (∀ a b c d, (a && b && c && d) = false → (nativeLoadDexApp false a b c d).1 = false) ∧
    (∀ a b c d e, (a && b && c && d && e) = false →
      (nativeLoadDexWithAppInfo false a b c d e).1 = false) ∧
    (∀ a b c d, (a && b && c && d) = false → (nativeLoadDexProvider false a b c d).1 = false) ∧
    (nativeLoadDexApp false true true true true = (true, true)) ∧
    (nativeLoadDexWithAppInfo false true true true true true = (true, true)) ∧
    (nativeLoadDexProvider false true true true true = (true, true)) := by
  decide

theorem c9_idempotence_flag_witness :
    ((false && true && true && true) = false ∧
      (nativeLoadDexApp false false true true true).1 = false) ∧
    ((false && true && true && true && true) = false ∧
      (nativeLoadDexWithAppInfo false false true true true true).1 = false) ∧
    ((true && true && false && true) = false ∧
      (nativeLoadDexProvider false true true false true).1 = false) :=
  ⟨⟨by decide, c9_idempotence_flag.2.2.2.2.2.2.2.1 false true true true (by decide)⟩,
    ⟨by decide, c9_idempotence_flag.2.2.2.2.2.2.2.2.1 false true true true true (by decide)⟩,
    ⟨by decide, c9_idempotence_flag.2.2.2.2.2.2.2.2.2.1 true true false true (by decide)⟩⟩
